import Mathlib

/-!
Shallow embedding of the eload firmware core (src/firmware/src/lib.rs and
src/firmware/src/main.rs): the long-press button detector, the quadrature
encoder decoder, the LED blink driver, the tick scheduler and the screen
state machine, together with theorems settling the specification claims.

Machine integers: all the counters in the source are u32. They are modelled
as Nat; wherever a u32 operation can wrap (the subtraction in
increase_freq, the addition in decrease_freq) the wrap is written out
explicitly as arithmetic modulo 4294967296 (= 2^32). Increments that are
guarded so that they can never exceed u32 range (the tick counter, which is
bumped only when strictly below another u32) are plain successor.
-/

set_option maxRecDepth 8000

/-- `LongPressButtonValue` (lib.rs): the events the button detector emits. -/
inductive LongPressButtonValue where
  | Press
  | LongPress
deriving DecidableEq

/-- `LongPressButtonState` (lib.rs). `StillPressed` suppresses a second
event after a LongPress was already detected for the same hold. -/
inductive LongPressButtonState where
  | Depressed
  | Candidate (i : Nat)
  | Pressed (i : Nat)
  | StillPressed
deriving DecidableEq

/-- `LongPressButton::DEBOUNCE_TICKS = max(1, CONTROL_RATE_HZ / 1000)` (~1 ms). -/
def DEBOUNCE_TICKS (rate : Nat) : Nat := max 1 (rate / 1000)

/-- `LongPressButton::LONGPRESS_TICKS = max(1, CONTROL_RATE_HZ)` (~1 s). -/
def LONGPRESS_TICKS (rate : Nat) : Nat := max 1 rate

/-- `LongPressButton::scan` (lib.rs), with the pin sample passed in as
`pressed` (the pin is active low, so `pressed = pin.is_low()`). Returns the
next state together with the optionally emitted event. The Rust match on
`(pressed, self.state)` with its two guards is rendered state by state. -/
def buttonScan (rate : Nat) (pressed : Bool) :
    LongPressButtonState → LongPressButtonState × Option LongPressButtonValue
  | .Depressed =>
    if pressed then (.Candidate 0, none) else (.Depressed, none)
  | .Candidate i =>
    if pressed then
      if i > DEBOUNCE_TICKS rate then (.Pressed 0, none)
      else (.Candidate (i + 1), none)
    else (.Depressed, none)
  | .Pressed i =>
    if pressed then
      if i > LONGPRESS_TICKS rate then (.StillPressed, some .LongPress)
      else (.Pressed (i + 1), none)
    else (.Depressed, some .Press)
  | .StillPressed =>
    if pressed then (.StillPressed, none) else (.Depressed, none)

/-- Iterated `LongPressButton::scan` over a list of pin samples, returning
the final state and the per-scan results in order. -/
def buttonRun (rate : Nat) (s : LongPressButtonState) :
    List Bool → LongPressButtonState × List (Option LongPressButtonValue)
  | [] => (s, [])
  | p :: ps =>
    let step := buttonScan rate p s
    let rest := buttonRun rate step.1 ps
    (rest.1, step.2 :: rest.2)

/-- The events a sample sequence produces (scan results with `none` dropped). -/
def buttonEvents (rate : Nat) (s : LongPressButtonState) (l : List Bool) :
    List LongPressButtonValue :=
  ((buttonRun rate s l).2).filterMap id

/-- `EncoderValue` (lib.rs). -/
inductive EncoderValue where
  | Cw
  | Ccw
deriving DecidableEq

/-- `Encoder::scan` (lib.rs), with the two pin samples passed in as `a`, `b`
(both pins are active low, so these are the `is_low()` readings). The stored
`previous_state` is the first component of the result; it is unconditionally
replaced by the current sample, and an event fires only on a both-true
sample whose predecessor asserted exactly one line. -/
def encoderScan (prev : Bool × Bool) (a b : Bool) :
    (Bool × Bool) × Option EncoderValue :=
  ((a, b),
    if (a, b) = (true, true) then
      match prev with
      | (false, true) => some .Cw
      | (true, false) => some .Ccw
      | _ => none
    else none)

/-- Iterated `Encoder::scan` over a sample sequence, collecting the per-scan
results in order. -/
def encoderRun (prev : Bool × Bool) : List (Bool × Bool) → List (Option EncoderValue)
  | [] => []
  | s :: rest => (encoderScan prev s.1 s.2).2 :: encoderRun s rest

/-- The sample a scan compares against: the decoder's stored previous pair,
which is the initial pair `p` for the first scan and the preceding list
entry afterwards. -/
def prevSample (p : Bool × Bool) (l : List (Bool × Bool)) (k : Nat) : Bool × Bool :=
  if k = 0 then p else l.getD (k - 1) (false, false)

/-- `Led::blink_short` (lib.rs): `cycles = cycles.max(25 * (RATE / 1000).max(1))`. -/
def blink_short (rate cycles : Nat) : Nat := max cycles (25 * max (rate / 1000) 1)

/-- `Led::blink_long` (lib.rs): `cycles = cycles.max(100 * (RATE / 1000).max(1))`. -/
def blink_long (rate cycles : Nat) : Nat := max cycles (100 * max (rate / 1000) 1)

/-- `Led::update` (lib.rs): saturating-decrement the cycle counter, then
drive the pin. The returned Bool is the level written to the pin
(`true` = `set_high`), namely `(cycles > 0) ^ ACTIVE_LOW` after the
decrement. Nat subtraction is exactly `u32::saturating_sub`. -/
def ledUpdate (activeLow : Bool) (cycles : Nat) : Nat × Bool :=
  let c := cycles - 1
  (c, Bool.xor (decide (c > 0)) activeLow)

/-- Cycle counter after `n` calls to `Led::update`. -/
def ledIter (activeLow : Bool) (cycles : Nat) : Nat → Nat
  | 0 => cycles
  | n + 1 => (ledUpdate activeLow (ledIter activeLow cycles n)).1

/-- Pin level written by the k-th call to `Led::update` (k counted from 1),
starting from the counter value `cycles`. -/
def ledOut (activeLow : Bool) (cycles k : Nat) : Bool :=
  (ledUpdate activeLow (ledIter activeLow cycles (k - 1))).2

/-- The pin level at which the LED is lit: low for an active-low LED, high
otherwise. -/
def activeLevel (activeLow : Bool) : Bool := !activeLow

/-- `State` (main.rs): the shared application state, `ticks_max` and the
running tick counter (field `tick` in the source). -/
structure State where
  ticks_max : Nat
  tick : Nat
deriving DecidableEq

/-- `State::default` (main.rs): `ticks_max = 20`, `tick = 0`. -/
def State.default : State := ⟨20, 0⟩

/-- `State::increase_freq` (main.rs): `ticks_max = (ticks_max - 20).max(20)`.
The subtraction is u32 arithmetic, so it is written as the wrapping
`(ticks_max + (2^32 - 20)) % 2^32` with `2^32 - 20 = 4294967276` spelled
out; on the reachable states (`ticks_max ≥ 20`) this is plain subtraction
by 20. -/
def State.increase_freq (s : State) : State :=
  { s with ticks_max := max ((s.ticks_max + 4294967276) % 4294967296) 20 }

/-- `State::decrease_freq` (main.rs): `ticks_max = (ticks_max + 20).min(1000)`,
the addition again wrapping at 2^32. -/
def State.decrease_freq (s : State) : State :=
  { s with ticks_max := min ((s.ticks_max + 20) % 4294967296) 1000 }

/-- `State::tick` (main.rs), named `tickOnce` here because the Rust method
shares its name with the `tick` field: fire and reset when the counter has
reached `ticks_max`, otherwise just count. The increment happens only when
`tick < ticks_max`, so it can never leave u32 range. -/
def State.tickOnce (s : State) : State × Bool :=
  if s.tick ≥ s.ticks_max then ({ s with tick := 0 }, true)
  else ({ s with tick := s.tick + 1 }, false)

/-- Scheduler state after `n` calls to `State::tick`. -/
def tickIter (s : State) : Nat → State
  | 0 => s
  | n + 1 => ((tickIter s n).tickOnce).1

/-- Result of the call to `State::tick` made after `k` earlier calls, with
`ticks_max = m` held constant and the counter started at zero. -/
def tickOut (m k : Nat) : Bool := ((tickIter ⟨m, 0⟩ k).tickOnce).2

/-- `InputEvent` (main.rs). -/
inductive InputEvent where
  | Encoder (v : EncoderValue)
  | EncoderButton (v : LongPressButtonValue)
deriving DecidableEq

/-- Display operations observed at the `Ui` boundary: the HD44780 calls the
screens make (`clear`, `write_str` of a literal, `set_cursor_xy`, and the
`write_str` of the formatted `ticks_max` readout, abstracted as the number
it renders). -/
inductive DisplayOp where
  | clear
  | write (s : String)
  | setCursor (x y : Nat)
  | writeTicks (n : Nat)
deriving DecidableEq

/-- Column count of the 16x2 display (`MemoryMap1602`, `display_size`). -/
def LCD_COLS : Nat := 16

/-- `MainScreen` (main.rs): a unit struct. -/
structure MainScreen where
deriving DecidableEq

/-- `TicksScreen` (main.rs): its one transient field, the dirty flag for the
ticks readout. -/
structure TicksScreen where
  redraw_ticks : Bool
deriving DecidableEq

/-- `TicksScreen::default` (main.rs): `redraw_ticks = true`. -/
def TicksScreen.default : TicksScreen := ⟨true⟩

/-- `TicksScreen::handle_input` (main.rs): Cw runs `increase_freq`, Ccw runs
`decrease_freq`, everything else is ignored; the screen itself is untouched. -/
def TicksScreen.handle_input (t : TicksScreen) (ev : InputEvent) (st : State) :
    TicksScreen × State :=
  match ev with
  | .Encoder .Cw => (t, st.increase_freq)
  | .Encoder .Ccw => (t, st.decrease_freq)
  | _ => (t, st)

/-- `TicksScreen::update` (main.rs): `mem::take` the dirty flag; when it was
set, position the cursor and write the readout, otherwise do nothing. -/
def TicksScreen.update (t : TicksScreen) (st : State) : TicksScreen × List DisplayOp :=
  if t.redraw_ticks then
    (⟨false⟩, [.setCursor (LCD_COLS - 4) 0, .writeTicks st.ticks_max])
  else (t, [])

/-- `TicksScreen::draw` (main.rs): clear, write the title, then run `update`. -/
def TicksScreen.draw (t : TicksScreen) (st : State) : TicksScreen × List DisplayOp :=
  let u := TicksScreen.update t st
  (u.1, .clear :: .write "Ticks Panel" :: u.2)

/-- `MainScreen::draw` (main.rs): clear and write the title. -/
def MainScreen.draw (p : MainScreen) (_st : State) : MainScreen × List DisplayOp :=
  (p, [.clear, .write "Main Panel"])

/-- `Screens` (main.rs): the closed screen set. -/
inductive Screens where
  | Main (p : MainScreen)
  | Ticks (p : TicksScreen)
deriving DecidableEq

/-- Screen identity, forgetting the per-screen transient state. -/
inductive ScreenId where
  | Main
  | Ticks
deriving DecidableEq

/-- The identity of a screen. -/
def Screens.ident : Screens → ScreenId
  | .Main _ => .Main
  | .Ticks _ => .Ticks

/-- `Screens::draw` (main.rs): dispatch to the active screen. -/
def Screens.draw : Screens → State → Screens × List DisplayOp
  | .Main p, st => (.Main (MainScreen.draw p st).1, (MainScreen.draw p st).2)
  | .Ticks t, st => (.Ticks (TicksScreen.draw t st).1, (TicksScreen.draw t st).2)

/-- `Screens::handle_input` (main.rs): dispatch; `MainScreen` uses the trait
default which does nothing. -/
def Screens.handle_input : Screens → InputEvent → State → Screens × State
  | .Main p, _, st => (.Main p, st)
  | .Ticks t, ev, st =>
    (.Ticks (TicksScreen.handle_input t ev st).1, (TicksScreen.handle_input t ev st).2)

/-- `Screens::update` (main.rs): dispatch; `MainScreen` uses the trait
default which performs no display operation. -/
def Screens.update : Screens → State → Screens × List DisplayOp
  | .Main p, _ => (.Main p, [])
  | .Ticks t, st => (.Ticks (TicksScreen.update t st).1, (TicksScreen.update t st).2)

/-- The observable outcome of one iteration of the application event loop. -/
structure CycleResult where
  screen : Screens
  state : State
  ops : List DisplayOp
  draws : Nat
  toggled : Bool
deriving DecidableEq

/-- One iteration of the event loop in `main` (main.rs), given this cycle's
two scan results: dispatch the events to the active screen's
`handle_input`, then either navigate to the next screen and `draw` it (on a
LongPress) or `update` the current screen, then advance the scheduler,
toggling the heartbeat LED when it fires. `draws` counts the `draw`
invocations of the iteration. -/
def loopCycle (screen : Screens) (st : State) (encoderEvent : Option EncoderValue)
    (buttonEvent : Option LongPressButtonValue) : CycleResult :=
  let events := [encoderEvent.map InputEvent.Encoder,
                 buttonEvent.map InputEvent.EncoderButton]
  let h := events.foldl
    (fun acc ev =>
      match ev with
      | some e => Screens.handle_input acc.1 e acc.2
      | none => acc)
    (screen, st)
  let nav : Screens × List DisplayOp × Nat :=
    if buttonEvent = some LongPressButtonValue.LongPress then
      let next := match h.1 with
        | Screens.Main _ => Screens.Ticks TicksScreen.default
        | Screens.Ticks _ => Screens.Main ⟨⟩
      let d := Screens.draw next h.2
      (d.1, d.2, 1)
    else
      let u := Screens.update h.1 h.2
      (u.1, u.2, 0)
  let t := State.tickOnce h.2
  ⟨nav.1, t.1, nav.2.1, nav.2.2, t.2⟩

/-- `FreqOp`: one call to `increase_freq` or `decrease_freq`, as routed by
the Ticks screen from encoder events. -/
inductive FreqOp where
  | inc
  | dec
deriving DecidableEq

/-- One frequency adjustment applied to the application state. -/
def applyFreqOp (s : State) : FreqOp → State
  | .inc => s.increase_freq
  | .dec => s.decrease_freq

/-- A sequence of frequency adjustments applied to the application state. -/
def applyFreqOps (s : State) (ops : List FreqOp) : State :=
  ops.foldl applyFreqOp s

/-! ## Arithmetic helpers -/

lemma mod_succ_of_lt (m k : Nat) (h : k % (m + 1) < m) :
    (k + 1) % (m + 1) = k % (m + 1) + 1 := by
  have h1 : (1 : Nat) % (m + 1) = 1 := Nat.mod_eq_of_lt (by omega)
  have h2 : k % (m + 1) + 1 < m + 1 := by omega
  rw [Nat.add_mod, h1, Nat.mod_eq_of_lt h2]

lemma mod_succ_of_eq (m k : Nat) (h : k % (m + 1) = m) : (k + 1) % (m + 1) = 0 := by
  obtain ⟨q, hq⟩ : ∃ q, k = (m + 1) * q + m :=
    ⟨k / (m + 1), by conv_lhs => rw [← Nat.div_add_mod k (m + 1), h]⟩
  subst hq
  have he : (m + 1) * q + m + 1 = (m + 1) * (q + 1) := by ring
  rw [he, Nat.mul_mod_right]

lemma fire_unique_in_window (m j : Nat) :
    ∃ i, i < m + 1 ∧ (j + i) % (m + 1) = m ∧
      ∀ i2, i2 < m + 1 → (j + i2) % (m + 1) = m → i2 = i := by
  obtain ⟨q, hq⟩ : ∃ q, j = (m + 1) * q + j % (m + 1) :=
    ⟨j / (m + 1), (Nat.div_add_mod j (m + 1)).symm⟩
  have ht : j % (m + 1) < m + 1 := Nat.mod_lt _ (by omega)
  refine ⟨m - j % (m + 1), by omega, ?_, ?_⟩
  · have he : j + (m - j % (m + 1)) = (m + 1) * q + m := by omega
    rw [he, Nat.mul_add_mod, Nat.mod_eq_of_lt (by omega)]
  · intro i2 h2 he
    have hs : j + i2 = (m + 1) * q + (j % (m + 1) + i2) := by omega
    rw [hs, Nat.mul_add_mod] at he
    by_cases hlt : j % (m + 1) + i2 < m + 1
    · rw [Nat.mod_eq_of_lt hlt] at he; omega
    · have hm : (j % (m + 1) + i2) % (m + 1) = j % (m + 1) + i2 - (m + 1) := by
        rw [Nat.mod_eq_sub_mod (by omega), Nat.mod_eq_of_lt (by omega)]
      rw [hm] at he; omega

/-! ## TickScheduler lemmas -/

lemma increase_freq_ticks_max (s : State) (h1 : 20 ≤ s.ticks_max) (h2 : s.ticks_max ≤ 1000) :
    s.increase_freq.ticks_max = max (s.ticks_max - 20) 20 := by
  simp only [State.increase_freq]
  omega

lemma decrease_freq_ticks_max (s : State) (h2 : s.ticks_max ≤ 1000) :
    s.decrease_freq.ticks_max = min (s.ticks_max + 20) 1000 := by
  simp only [State.decrease_freq]
  omega

lemma applyFreqOps_bounds :
    ∀ (ops : List FreqOp) (s : State), 20 ≤ s.ticks_max → s.ticks_max ≤ 1000 →
      20 ≤ (applyFreqOps s ops).ticks_max ∧ (applyFreqOps s ops).ticks_max ≤ 1000 := by
  intro ops
  induction ops with
  | nil => exact fun s h1 h2 => ⟨h1, h2⟩
  | cons op rest ih =>
    intro s h1 h2
    simp only [applyFreqOps, List.foldl_cons] at ih ⊢
    cases op with
    | inc =>
      simp only [applyFreqOp]
      exact ih _ (by rw [increase_freq_ticks_max s h1 h2]; omega)
        (by rw [increase_freq_ticks_max s h1 h2]; omega)
    | dec =>
      simp only [applyFreqOp]
      exact ih _ (by rw [decrease_freq_ticks_max s h2]; omega)
        (by rw [decrease_freq_ticks_max s h2]; omega)

lemma increase_freq_default : State.increase_freq ⟨20, 0⟩ = (⟨20, 0⟩ : State) := by decide

lemma applyFreqOps_inc_replicate :
    ∀ n, applyFreqOps ⟨20, 0⟩ (List.replicate n .inc) = (⟨20, 0⟩ : State) := by
  intro n
  induction n with
  | zero => rfl
  | succ n ih =>
    rw [List.replicate_succ]
    simp only [applyFreqOps, List.foldl_cons] at ih ⊢
    rw [show applyFreqOp ⟨20, 0⟩ .inc = State.increase_freq ⟨20, 0⟩ from rfl,
      increase_freq_default]
    exact ih

lemma tickIter_mod (m : Nat) : ∀ k, tickIter ⟨m, 0⟩ k = ⟨m, k % (m + 1)⟩ := by
  intro k
  induction k with
  | zero => simp [tickIter]
  | succ k ih =>
    have hk : k % (m + 1) < m + 1 := Nat.mod_lt _ (by omega)
    simp only [tickIter, ih, State.tickOnce]
    by_cases hc : k % (m + 1) ≥ m
    · have he : k % (m + 1) = m := by omega
      rw [if_pos hc, mod_succ_of_eq m k he]
    · rw [if_neg hc, mod_succ_of_lt m k (by omega)]

lemma tickOut_iff (m k : Nat) : tickOut m k = true ↔ k % (m + 1) = m := by
  have hk : k % (m + 1) < m + 1 := Nat.mod_lt _ (by omega)
  unfold tickOut
  rw [tickIter_mod]
  simp only [State.tickOnce]
  by_cases hc : k % (m + 1) ≥ m
  · rw [if_pos hc]; simp; omega
  · rw [if_neg hc]; simp; omega

/-! ## Claim theorems: scheduler and blink driver -/

/-- C3: with `ticks_max` held constant at `m` and the counter started at
zero, the counter after `k` calls to `State::tick` is `k % (m+1)`; a call
returns true exactly when the counter has reached `m`, hence exactly once in
every window of `m+1` consecutive calls and false on all other calls, and
the firing call resets the counter to zero. -/
theorem tick_fires_once_per_period (m k j : Nat) :
    (tickIter ⟨m, 0⟩ k).tick = k % (m + 1) ∧
    (tickOut m k = true ↔ k % (m + 1) = m) ∧
    (tickOut m k = true → (tickIter ⟨m, 0⟩ (k + 1)).tick = 0) ∧
    (∃ i, i < m + 1 ∧ tickOut m (j + i) = true ∧
      ∀ i2, i2 < m + 1 → tickOut m (j + i2) = true → i2 = i) := by
  refine ⟨by rw [tickIter_mod], tickOut_iff m k, ?_, ?_⟩
  · intro h
    have he := (tickOut_iff m k).1 h
    rw [tickIter_mod, mod_succ_of_eq m k he]
  · obtain ⟨i, h1, h2, h3⟩ := fire_unique_in_window m j
    exact ⟨i, h1, (tickOut_iff m (j + i)).2 h2,
      fun i2 hi2 he => h3 i2 hi2 ((tickOut_iff m (j + i2)).1 he)⟩

/-- Witness for C3 at `m = 2`: the third call fires and resets the counter. -/
theorem tick_fires_once_per_period_witness : (tickIter ⟨2, 0⟩ 3).tick = 0 :=
  (tick_fires_once_per_period 2 2 0).2.2.1 (by decide)

/-- C5: starting from the initial `ticks_max = 20`, every sequence of
`increase_freq`/`decrease_freq` calls keeps `ticks_max` within [20, 1000];
`increase_freq` subtracts 20 floored at 20 and `decrease_freq` adds 20
capped at 1000, each idempotent at its bound, and in particular any number
of `increase_freq` calls from 20 leaves `ticks_max = 20`. -/
theorem freq_ops_clamped (ops : List FreqOp) (n : Nat) :
    (20 ≤ (applyFreqOps State.default ops).ticks_max ∧
      (applyFreqOps State.default ops).ticks_max ≤ 1000) ∧
    (∀ s : State, 20 ≤ s.ticks_max → s.ticks_max ≤ 1000 →
      s.increase_freq.ticks_max = max (s.ticks_max - 20) 20 ∧
      s.decrease_freq.ticks_max = min (s.ticks_max + 20) 1000) ∧
    (∀ s : State, s.ticks_max = 20 → s.increase_freq.ticks_max = 20) ∧
    (∀ s : State, s.ticks_max = 1000 → s.decrease_freq.ticks_max = 1000) ∧
    (applyFreqOps State.default (List.replicate n .inc)).ticks_max = 20 := by
  refine ⟨applyFreqOps_bounds ops State.default (by decide) (by decide), ?_, ?_, ?_, ?_⟩
  · exact fun s h1 h2 => ⟨increase_freq_ticks_max s h1 h2, decrease_freq_ticks_max s h2⟩
  · intro s h
    rw [increase_freq_ticks_max s (by omega) (by omega)]
    omega
  · intro s h
    rw [decrease_freq_ticks_max s (by omega)]
    omega
  · rw [show State.default = (⟨20, 0⟩ : State) from rfl, applyFreqOps_inc_replicate n]

/-- Witness for C5 at `ticks_max = 100`: the two adjustments compute the
clamped subtraction and addition. -/
theorem freq_ops_clamped_witness :
    (State.mk 100 0).increase_freq.ticks_max = max (100 - 20) 20 ∧
    (State.mk 100 0).decrease_freq.ticks_max = min (100 + 20) 1000 :=
  (freq_ops_clamped [] 0).2.1 ⟨100, 0⟩ (by decide) (by decide)

/-- C8: `blink_short` and `blink_long` set the cycle counter to the maximum
of its current value and the requested pulse length, so neither ever
decreases it. -/
theorem blink_never_shortens (rate c : Nat) :
    blink_short rate c = max c (25 * max (rate / 1000) 1) ∧
    blink_long rate c = max c (100 * max (rate / 1000) 1) ∧
    c ≤ blink_short rate c ∧ c ≤ blink_long rate c :=
  ⟨rfl, rfl, Nat.le_max_left _ _, Nat.le_max_left _ _⟩

/-! ## Encoder lemmas -/

lemma prevSample_cons (p s : Bool × Bool) (rest : List (Bool × Bool)) (k : Nat) :
    prevSample p (s :: rest) (k + 1) = prevSample s rest k := by
  unfold prevSample
  cases k with
  | zero => simp
  | succ j => simp

lemma encoderRun_getD :
    ∀ (l : List (Bool × Bool)) (p : Bool × Bool) (k : Nat), k < l.length →
      (encoderRun p l).getD k none =
        (encoderScan (prevSample p l k) (l.getD k (false, false)).1
          (l.getD k (false, false)).2).2 := by
  intro l
  induction l with
  | nil => intro p k h; simp at h
  | cons s rest ih =>
    intro p k h
    cases k with
    | zero => simp [encoderRun, prevSample]
    | succ k =>
      have h2 : k < rest.length := by simpa using h
      show ((encoderScan p s.1 s.2).2 :: encoderRun s rest).getD (k + 1) none = _
      rw [List.getD_cons_succ, List.getD_cons_succ, prevSample_cons, ih s k h2]

/-! ## Claim theorems: encoder, blink pulse, Ticks screen, navigation -/

/-- C4: over any sample sequence (initial stored pair `(false, false)`), the
scan at position `k` yields Cw exactly when the current sample is
`(true, true)` and the previous one was `(false, true)`, Ccw exactly when
the previous one was `(true, false)`, and nothing otherwise — in particular
a repeated both-true sample never produces a second event. -/
theorem encoder_event_characterization (l : List (Bool × Bool)) (k : Nat)
    (h : k < l.length) :
    ((encoderRun (false, false) l).getD k none = some EncoderValue.Cw ↔
      l.getD k (false, false) = (true, true) ∧
        prevSample (false, false) l k = (false, true)) ∧
    ((encoderRun (false, false) l).getD k none = some EncoderValue.Ccw ↔
      l.getD k (false, false) = (true, true) ∧
        prevSample (false, false) l k = (true, false)) ∧
    (¬(l.getD k (false, false) = (true, true) ∧
        (prevSample (false, false) l k = (false, true) ∨
          prevSample (false, false) l k = (true, false))) →
      (encoderRun (false, false) l).getD k none = none) := by
  rw [encoderRun_getD l (false, false) k h]
  rcases hcur : l.getD k (false, false) with ⟨a, b⟩
  rcases hprev : prevSample (false, false) l k with ⟨c, d⟩
  cases a <;> cases b <;> cases c <;> cases d <;> decide

/-- Witness for C4: in the two-sample sequence `(false,true), (true,true)`
the second scan reports Cw. -/
theorem encoder_event_characterization_witness :
    (encoderRun (false, false) [((false : Bool), (true : Bool)), (true, true)]).getD 1 none
      = some EncoderValue.Cw :=
  ((encoder_event_characterization [(false, true), (true, true)] 1 (by decide)).1).mpr
    (by decide)

lemma ledIter_eq (al : Bool) (c : Nat) : ∀ n, ledIter al c n = c - n := by
  intro n
  induction n with
  | zero => rfl
  | succ n ih =>
    simp only [ledIter, ledUpdate, ih]
    omega

/-- C6 counterexample: at rate 1000 the requested short pulse is
`25 * max(1, 1000/1000) = 25` cycles, but after `blink_short` from a zero
counter the output is at the active level only on updates 1 through 24 and
is already at the inactive level on update 25 — not active for 25 cycles as
the claim states. -/
theorem blink_short_25th_update_inactive :
    ledOut true (blink_short 1000 0) 1 = activeLevel true ∧
    ledOut true (blink_short 1000 0) 24 = activeLevel true ∧
    ledOut true (blink_short 1000 0) 25 ≠ activeLevel true := by decide

/-- C6 amended: after `blink_short` from a zero counter, update `k` (counted
from 1) drives the output at the active level exactly for
`k < 25 * max(1, rate/1000)`, i.e. the output is active for exactly
`25 * max(1, rate/1000) - 1` consecutive cycles and inactive on every
update thereafter. -/
theorem blink_short_pulse (rate : Nat) (al : Bool) (k : Nat) (hk : 1 ≤ k) :
    ledOut al (blink_short rate 0) k = activeLevel al ↔
      k < 25 * max (rate / 1000) 1 := by
  have hS : blink_short rate 0 = 25 * max (rate / 1000) 1 := by
    simp [blink_short]
  unfold ledOut
  rw [ledIter_eq, hS]
  simp only [ledUpdate, activeLevel]
  cases al <;> simp <;> omega

/-- Witness for C6: the first update after a short blink at rate 1000 drives
the active level. -/
theorem blink_short_pulse_witness :
    ledOut true (blink_short 1000 0) 1 = activeLevel true :=
  (blink_short_pulse 1000 true 1 (by decide)).mpr (by decide)

/-- C2 counterexample: on the Ticks screen with a clean readout and
`ticks_max = 100`, one Clockwise event delivered to `handle_input` leaves
`ticks_max = 80` — a decrease by 20, not an increase to 120 — does not set
the dirty flag, and the next cycle's `update` performs no display write. -/
theorem ticks_screen_cw_counterexample :
    (TicksScreen.handle_input ⟨false⟩ (.Encoder .Cw) ⟨100, 0⟩).2.ticks_max = 80 ∧
    ¬(TicksScreen.handle_input ⟨false⟩ (.Encoder .Cw) ⟨100, 0⟩).2.ticks_max = 120 ∧
    (TicksScreen.update (TicksScreen.handle_input ⟨false⟩ (.Encoder .Cw) ⟨100, 0⟩).1
      (TicksScreen.handle_input ⟨false⟩ (.Encoder .Cw) ⟨100, 0⟩).2).2 = [] := by decide

/-- C2 amended: while the Ticks screen is active, a Clockwise encoder event
delivered to `handle_input` decreases `ticks_max` by 20 (floored at 20) and
leaves the screen, in particular its dirty flag, unchanged; when the readout
was not already marked dirty, zero display writes occur in the next cycle's
`update`. -/
theorem ticks_screen_cw (t : TicksScreen) (st : State) (h1 : 20 ≤ st.ticks_max)
    (h2 : st.ticks_max ≤ 1000) :
    (TicksScreen.handle_input t (.Encoder .Cw) st).1 = t ∧
    (TicksScreen.handle_input t (.Encoder .Cw) st).2.ticks_max =
      max (st.ticks_max - 20) 20 ∧
    (t.redraw_ticks = false →
      (TicksScreen.update (TicksScreen.handle_input t (.Encoder .Cw) st).1
        (TicksScreen.handle_input t (.Encoder .Cw) st).2).2 = []) := by
  refine ⟨rfl, increase_freq_ticks_max st h1 h2, ?_⟩
  intro hf
  simp [TicksScreen.update, TicksScreen.handle_input, hf]

/-- Witness for C2 amended at `ticks_max = 100` and a clean readout. -/
theorem ticks_screen_cw_witness :
    (TicksScreen.handle_input ⟨false⟩ (.Encoder .Cw) ⟨100, 0⟩).2.ticks_max =
      max (100 - 20) 20 ∧
    (TicksScreen.update
      (TicksScreen.handle_input (⟨false⟩ : TicksScreen) (.Encoder .Cw) ⟨100, 0⟩).1
      (TicksScreen.handle_input (⟨false⟩ : TicksScreen) (.Encoder .Cw) ⟨100, 0⟩).2).2 = [] :=
  ⟨(ticks_screen_cw ⟨false⟩ ⟨100, 0⟩ (by decide) (by decide)).2.1,
   (ticks_screen_cw ⟨false⟩ ⟨100, 0⟩ (by decide) (by decide)).2.2 rfl⟩

/-- C9: a LongPress while on Main navigates to Ticks and invokes `draw`
exactly once; a LongPress while on Ticks navigates back to Main with exactly
one `draw`; any cycle whose button event is not a LongPress keeps the screen
identity and performs no `draw`. -/
theorem longpress_navigation (st : State) (e : Option EncoderValue)
    (b : Option LongPressButtonValue) (s : Screens) (p : MainScreen) (t : TicksScreen) :
    ((loopCycle (.Main p) st e (some .LongPress)).screen.ident = .Ticks ∧
      (loopCycle (.Main p) st e (some .LongPress)).draws = 1) ∧
    ((loopCycle (.Ticks t) st e (some .LongPress)).screen.ident = .Main ∧
      (loopCycle (.Ticks t) st e (some .LongPress)).draws = 1) ∧
    (b ≠ some .LongPress →
      (loopCycle s st e b).screen.ident = s.ident ∧ (loopCycle s st e b).draws = 0) := by
  refine ⟨?_, ?_, ?_⟩
  · rcases e with _ | v
    · simp [loopCycle, Screens.handle_input, Screens.draw, Screens.ident,
        TicksScreen.draw, TicksScreen.update, TicksScreen.default]
    · cases v <;>
        simp [loopCycle, Screens.handle_input, Screens.draw, Screens.ident,
          TicksScreen.draw, TicksScreen.update, TicksScreen.default,
          TicksScreen.handle_input]
  · rcases e with _ | v
    · simp [loopCycle, Screens.handle_input, Screens.draw, Screens.ident,
        MainScreen.draw, TicksScreen.handle_input]
    · cases v <;>
        simp [loopCycle, Screens.handle_input, Screens.draw, Screens.ident,
          MainScreen.draw, TicksScreen.handle_input]
  · intro hb
    rcases b with _ | bv
    · cases s <;> rcases e with _ | v
      · simp [loopCycle, Screens.handle_input, Screens.update, Screens.ident]
      · cases v <;>
          simp [loopCycle, Screens.handle_input, Screens.update, Screens.ident,
            TicksScreen.handle_input]
      · simp [loopCycle, Screens.handle_input, Screens.update, Screens.ident,
          TicksScreen.update, TicksScreen.handle_input]
      · cases v <;>
          simp [loopCycle, Screens.handle_input, Screens.update, Screens.ident,
            TicksScreen.update, TicksScreen.handle_input]
    · cases bv
      · cases s <;> rcases e with _ | v
        · simp [loopCycle, Screens.handle_input, Screens.update, Screens.ident]
        · cases v <;>
            simp [loopCycle, Screens.handle_input, Screens.update, Screens.ident,
              TicksScreen.handle_input]
        · simp [loopCycle, Screens.handle_input, Screens.update, Screens.ident,
            TicksScreen.update, TicksScreen.handle_input]
        · cases v <;>
            simp [loopCycle, Screens.handle_input, Screens.update, Screens.ident,
              TicksScreen.update, TicksScreen.handle_input]
      · exact absurd rfl hb

/-- Witness for C9: a cycle with no events keeps the Main screen and draws
nothing. -/
theorem longpress_navigation_witness :
    (loopCycle (Screens.Main ⟨⟩) ⟨20, 0⟩ none none).screen.ident =
      (Screens.Main ⟨⟩).ident ∧
    (loopCycle (Screens.Main ⟨⟩) ⟨20, 0⟩ none none).draws = 0 :=
  (longpress_navigation ⟨20, 0⟩ none none (Screens.Main ⟨⟩) ⟨⟩ ⟨true⟩).2.2 (by decide)

/-! ## Button detector lemmas -/

lemma filterMap_id_replicate_none {α : Type} (n : Nat) :
    (List.replicate n (none : Option α)).filterMap id = [] := by
  induction n with
  | zero => rfl
  | succ n ih => simp [List.replicate_succ, ih]

lemma buttonRun_append (rate : Nat) :
    ∀ (xs ys : List Bool) (s : LongPressButtonState),
      buttonRun rate s (xs ++ ys) =
        ((buttonRun rate (buttonRun rate s xs).1 ys).1,
          (buttonRun rate s xs).2 ++ (buttonRun rate (buttonRun rate s xs).1 ys).2) := by
  intro xs
  induction xs with
  | nil => intro ys s; simp [buttonRun]
  | cons p ps ih =>
    intro ys s
    simp only [List.cons_append, buttonRun, List.append_eq]
    rw [ih]

lemma buttonRun_stillPressed (rate : Nat) :
    ∀ n, buttonRun rate .StillPressed (List.replicate n true) =
      (.StillPressed, List.replicate n none) := by
  intro n
  induction n with
  | zero => rfl
  | succ n ih =>
    rw [List.replicate_succ]
    simp only [buttonRun,
      show buttonScan rate true LongPressButtonState.StillPressed =
        (.StillPressed, none) from rfl, ih]
    simp [List.replicate_succ]

lemma buttonRun_candidate (rate : Nat) :
    ∀ (k i : Nat), i + k ≤ DEBOUNCE_TICKS rate + 1 →
      buttonRun rate (.Candidate i) (List.replicate k true) =
        (.Candidate (i + k), List.replicate k none) := by
  intro k
  induction k with
  | zero => intro i h; simp [buttonRun]
  | succ k ih =>
    intro i h
    have hd : ¬ i > DEBOUNCE_TICKS rate := by omega
    have hstep : buttonScan rate true (.Candidate i) = (.Candidate (i + 1), none) := by
      show (if i > DEBOUNCE_TICKS rate then ((.Pressed 0 : LongPressButtonState), none)
        else (.Candidate (i + 1), none)) = _
      rw [if_neg hd]
    rw [List.replicate_succ]
    simp only [buttonRun, hstep, ih (i + 1) (by omega)]
    have hik : i + 1 + k = i + (k + 1) := by omega
    simp [hik, List.replicate_succ]

lemma buttonRun_true_hold (rate : Nat) :
    ∀ (n : Nat) (s : LongPressButtonState), s ≠ .StillPressed →
      ((buttonRun rate s (List.replicate n true)).2.filterMap id = [] ∧
        (buttonRun rate s (List.replicate n true)).1 ≠ .StillPressed) ∨
      ((buttonRun rate s (List.replicate n true)).2.filterMap id = [.LongPress] ∧
        (buttonRun rate s (List.replicate n true)).1 = .StillPressed) := by
  intro n
  induction n with
  | zero => intro s hs; exact Or.inl ⟨rfl, hs⟩
  | succ n ih =>
    intro s hs
    rw [List.replicate_succ]
    cases s with
    | Depressed =>
      simp only [buttonRun,
        show buttonScan rate true LongPressButtonState.Depressed =
          (.Candidate 0, none) from rfl]
      rcases ih (.Candidate 0) (by simp) with ⟨h1, h2⟩ | ⟨h1, h2⟩
      · exact Or.inl ⟨by simp [h1], h2⟩
      · exact Or.inr ⟨by simp [h1], h2⟩
    | Candidate i =>
      by_cases hd : i > DEBOUNCE_TICKS rate
      · simp only [buttonRun,
          show buttonScan rate true (.Candidate i) =
            (if i > DEBOUNCE_TICKS rate then ((.Pressed 0 : LongPressButtonState), none)
              else (.Candidate (i + 1), none)) from rfl, if_pos hd]
        rcases ih (.Pressed 0) (by simp) with ⟨h1, h2⟩ | ⟨h1, h2⟩
        · exact Or.inl ⟨by simp [h1], h2⟩
        · exact Or.inr ⟨by simp [h1], h2⟩
      · simp only [buttonRun,
          show buttonScan rate true (.Candidate i) =
            (if i > DEBOUNCE_TICKS rate then ((.Pressed 0 : LongPressButtonState), none)
              else (.Candidate (i + 1), none)) from rfl, if_neg hd]
        rcases ih (.Candidate (i + 1)) (by simp) with ⟨h1, h2⟩ | ⟨h1, h2⟩
        · exact Or.inl ⟨by simp [h1], h2⟩
        · exact Or.inr ⟨by simp [h1], h2⟩
    | Pressed i =>
      by_cases hl : i > LONGPRESS_TICKS rate
      · simp only [buttonRun,
          show buttonScan rate true (.Pressed i) =
            (if i > LONGPRESS_TICKS rate
              then ((.StillPressed : LongPressButtonState), some .LongPress)
              else (.Pressed (i + 1), none)) from rfl, if_pos hl,
          buttonRun_stillPressed rate n]
        exact Or.inr ⟨by simp [filterMap_id_replicate_none], by simp⟩
      · simp only [buttonRun,
          show buttonScan rate true (.Pressed i) =
            (if i > LONGPRESS_TICKS rate
              then ((.StillPressed : LongPressButtonState), some .LongPress)
              else (.Pressed (i + 1), none)) from rfl, if_neg hl]
        rcases ih (.Pressed (i + 1)) (by simp) with ⟨h1, h2⟩ | ⟨h1, h2⟩
        · exact Or.inl ⟨by simp [h1], h2⟩
        · exact Or.inr ⟨by simp [h1], h2⟩
    | StillPressed => exact absurd rfl hs

lemma buttonRun_trues_to_pressed (rate : Nat) :
    buttonRun rate .Depressed (List.replicate (DEBOUNCE_TICKS rate + 3) true) =
      (.Pressed 0, List.replicate (DEBOUNCE_TICKS rate + 3) none) := by
  have hg : DEBOUNCE_TICKS rate + 1 > DEBOUNCE_TICKS rate := by omega
  have hs1 : buttonScan rate true (.Candidate (DEBOUNCE_TICKS rate + 1)) =
      (.Pressed 0, none) := by
    show (if DEBOUNCE_TICKS rate + 1 > DEBOUNCE_TICKS rate
      then ((.Pressed 0 : LongPressButtonState), none)
      else (.Candidate (DEBOUNCE_TICKS rate + 1 + 1), none)) = _
    rw [if_pos hg]
  have hA : buttonRun rate .Depressed (List.replicate (DEBOUNCE_TICKS rate + 2) true) =
      (.Candidate (DEBOUNCE_TICKS rate + 1), List.replicate (DEBOUNCE_TICKS rate + 2) none) := by
    rw [show DEBOUNCE_TICKS rate + 2 = (DEBOUNCE_TICKS rate + 1) + 1 from rfl,
      List.replicate_succ,
      show buttonRun rate .Depressed
          (true :: List.replicate (DEBOUNCE_TICKS rate + 1) true) =
        ((buttonRun rate (.Candidate 0) (List.replicate (DEBOUNCE_TICKS rate + 1) true)).1,
          none :: (buttonRun rate (.Candidate 0)
            (List.replicate (DEBOUNCE_TICKS rate + 1) true)).2) from rfl,
      buttonRun_candidate rate (DEBOUNCE_TICKS rate + 1) 0 (by omega)]
    simp [List.replicate_succ]
  rw [show DEBOUNCE_TICKS rate + 3 = (DEBOUNCE_TICKS rate + 2) + 1 from rfl,
    List.replicate_succ' (DEBOUNCE_TICKS rate + 2) true,
    buttonRun_append rate (List.replicate (DEBOUNCE_TICKS rate + 2) true) [true] .Depressed,
    hA]
  dsimp only
  rw [show buttonRun rate (.Candidate (DEBOUNCE_TICKS rate + 1)) [true] =
      ((buttonScan rate true (.Candidate (DEBOUNCE_TICKS rate + 1))).1,
        [(buttonScan rate true (.Candidate (DEBOUNCE_TICKS rate + 1))).2]) from rfl,
    hs1]
  dsimp only
  rw [← List.replicate_succ' (DEBOUNCE_TICKS rate + 2) (none : Option LongPressButtonValue)]

/-! ## Claim theorems: button detector -/

/-- C1 counterexample: at the firmware's control rate 1000
(`DEBOUNCE_TICKS = 1`), holding `pressed = true` for exactly
`DEBOUNCE_TICKS + 1 = 2` scans and then releasing produces no event at all
(in particular not one Press): the hold never leaves the `Candidate` state,
and a release from `Candidate` is silent. -/
theorem button_debounce_plus_one_counterexample :
    buttonEvents 1000 .Depressed
      (List.replicate (DEBOUNCE_TICKS 1000 + 1) true ++ [false]) = [] := by decide

/-- C1 amended: holding `pressed = true` for exactly `DEBOUNCE_TICKS + 3`
consecutive scans (the minimum that reaches the `Pressed` state: one scan
entering `Candidate(0)`, `DEBOUNCE_TICKS + 1` scans counting up to
`Candidate(DEBOUNCE_TICKS + 1)`, one scan crossing into `Pressed(0)`) and
then `pressed = false` yields exactly one Press event and zero LongPress
events, ending back in `Depressed`. -/
theorem button_debounce_press (rate : Nat) :
    buttonEvents rate .Depressed
      (List.replicate (DEBOUNCE_TICKS rate + 3) true ++ [false]) = [.Press] ∧
    (buttonRun rate .Depressed
      (List.replicate (DEBOUNCE_TICKS rate + 3) true ++ [false])).1 = .Depressed := by
  have happ := buttonRun_append rate (List.replicate (DEBOUNCE_TICKS rate + 3) true)
    [false] .Depressed
  rw [buttonRun_trues_to_pressed] at happ
  have htail : buttonRun rate (.Pressed 0) [false] = (.Depressed, [some .Press]) := by
    simp only [buttonRun,
      show buttonScan rate false (.Pressed 0) = (.Depressed, some .Press) from rfl]
  rw [htail] at happ
  constructor
  · rw [buttonEvents, happ]
    simp [filterMap_id_replicate_none]
  · rw [happ]

/-- C7: for a single contiguous hold (`n` pressed scans then a release), the
detector emits at most one LongPress, ends back in `Depressed`, and
whenever a LongPress was emitted it is the only event of the whole hold: no
Press and nothing further on the release. -/
theorem button_single_hold (rate n : Nat) :
    (buttonRun rate .Depressed (List.replicate n true ++ [false])).1 = .Depressed ∧
    (buttonEvents rate .Depressed (List.replicate n true ++ [false])).count
      .LongPress ≤ 1 ∧
    ((buttonEvents rate .Depressed (List.replicate n true ++ [false])).count
        .LongPress = 1 →
      buttonEvents rate .Depressed (List.replicate n true ++ [false]) = [.LongPress]) := by
  have happ := buttonRun_append rate (List.replicate n true) [false] .Depressed
  have htail : ∀ s : LongPressButtonState,
      buttonRun rate s [false] =
        ((buttonScan rate false s).1, [(buttonScan rate false s).2]) := fun s => rfl
  rw [htail] at happ
  have hev : buttonEvents rate .Depressed (List.replicate n true ++ [false]) =
      (buttonRun rate .Depressed (List.replicate n true)).2.filterMap id ++
        [(buttonScan rate false
          (buttonRun rate .Depressed (List.replicate n true)).1).2].filterMap id := by
    rw [buttonEvents, happ]
    simp
  rcases buttonRun_true_hold rate n .Depressed (by simp) with ⟨h1, h2⟩ | ⟨h1, h2⟩
  · cases hstate : (buttonRun rate .Depressed (List.replicate n true)).1 with
    | Depressed =>
      rw [hstate] at happ hev
      rw [show buttonScan rate false LongPressButtonState.Depressed =
        (.Depressed, none) from rfl] at happ hev
      refine ⟨by rw [happ], ?_, ?_⟩ <;> rw [hev, h1] <;> decide
    | Candidate i =>
      rw [hstate] at happ hev
      rw [show buttonScan rate false (.Candidate i) =
        (.Depressed, none) from rfl] at happ hev
      refine ⟨by rw [happ], ?_, ?_⟩ <;> rw [hev, h1] <;> decide
    | Pressed i =>
      rw [hstate] at happ hev
      rw [show buttonScan rate false (.Pressed i) =
        (.Depressed, some .Press) from rfl] at happ hev
      refine ⟨by rw [happ], ?_, ?_⟩ <;> rw [hev, h1] <;> decide
    | StillPressed => exact absurd hstate h2
  · rw [h2] at happ hev
    rw [show buttonScan rate false LongPressButtonState.StillPressed =
      (.Depressed, none) from rfl] at happ hev
    refine ⟨by rw [happ], ?_, ?_⟩ <;> rw [hev, h1] <;> decide

/-- Witness for C7 at rate 1 with a 7-scan hold: the run emits exactly one
LongPress and nothing else. -/
theorem button_single_hold_witness :
    buttonEvents 1 .Depressed (List.replicate 7 true ++ [false]) = [.LongPress] :=
  (button_single_hold 1 7).2.2 (by decide)

/-- The counter bounds maintained by `LongPressButton::scan`. -/
def buttonInv (rate : Nat) : LongPressButtonState → Prop
  | .Candidate i => i ≤ DEBOUNCE_TICKS rate + 1
  | .Pressed i => i ≤ LONGPRESS_TICKS rate + 1
  | _ => True

lemma buttonScan_inv (rate : Nat) (p : Bool) (s : LongPressButtonState) :
    buttonInv rate (buttonScan rate p s).1 := by
  cases s with
  | Depressed => cases p <;> simp [buttonScan, buttonInv]
  | Candidate i =>
    cases p with
    | false => simp [buttonScan, buttonInv]
    | true =>
      by_cases hd : i > DEBOUNCE_TICKS rate
      · simp [buttonScan, hd, buttonInv]
      · simp [buttonScan, hd, buttonInv]
        omega
  | Pressed i =>
    cases p with
    | false => simp [buttonScan, buttonInv]
    | true =>
      by_cases hl : i > LONGPRESS_TICKS rate
      · simp [buttonScan, hl, buttonInv]
      · simp [buttonScan, hl, buttonInv]
        omega
  | StillPressed => cases p <;> simp [buttonScan, buttonInv]

lemma buttonRun_inv (rate : Nat) :
    ∀ (l : List Bool) (s : LongPressButtonState), buttonInv rate s →
      buttonInv rate (buttonRun rate s l).1 := by
  intro l
  induction l with
  | nil => exact fun s h => h
  | cons p ps ih =>
    intro s h
    simp only [buttonRun]
    exact ih _ (buttonScan_inv rate p s)

/-- C10: in every state reachable from `Depressed`, a `Candidate(i)` counter
satisfies `i ≤ DEBOUNCE_TICKS + 1` and a `Pressed(i)` counter satisfies
`i ≤ LONGPRESS_TICKS + 1`; hence for any rate with `rate + 2 ≤ 2^32` (in
particular the firmware's 1000) the counters stay strictly below `2^32`, so
the unguarded `i + 1` increments in `scan` cannot overflow the u32. -/
theorem button_counter_bounds (rate : Nat) (l : List Bool) :
    (∀ i, (buttonRun rate .Depressed l).1 = .Candidate i →
      i ≤ DEBOUNCE_TICKS rate + 1) ∧
    (∀ i, (buttonRun rate .Depressed l).1 = .Pressed i →
      i ≤ LONGPRESS_TICKS rate + 1) ∧
    (∀ i, rate + 2 ≤ 4294967296 →
      ((buttonRun rate .Depressed l).1 = .Candidate i ∨
        (buttonRun rate .Depressed l).1 = .Pressed i) → i < 4294967296) := by
  have h := buttonRun_inv rate l .Depressed trivial
  refine ⟨?_, ?_, ?_⟩
  · intro i hi
    rw [hi] at h
    simpa [buttonInv] using h
  · intro i hi
    rw [hi] at h
    simpa [buttonInv] using h
  · intro i hrate hd
    rcases hd with hd | hd
    · rw [hd] at h
      have hb : i ≤ DEBOUNCE_TICKS rate + 1 := by simpa [buttonInv] using h
      unfold DEBOUNCE_TICKS at hb
      omega
    · rw [hd] at h
      have hb : i ≤ LONGPRESS_TICKS rate + 1 := by simpa [buttonInv] using h
      unfold LONGPRESS_TICKS at hb
      omega

/-- Witness for C10: after two pressed scans at rate 1000 the state is
`Candidate 1`, whose counter is within the debounce bound and far below the
u32 limit. -/
theorem button_counter_bounds_witness :
    1 ≤ DEBOUNCE_TICKS 1000 + 1 ∧ (1 : Nat) < 4294967296 :=
  ⟨(button_counter_bounds 1000 [true, true]).1 1 (by decide),
   (button_counter_bounds 1000 [true, true]).2.2 1 (by decide) (Or.inl (by decide))⟩
